import Mathlib

/-!
# Verification of the container layout planner and frame compositor

Shallow embedding of the core of `python-video-display`:

* `ContainerTransform.generate_container_settings` together with its grid
  helpers `_find_grid_space`, `_is_space_available`, `_occupy_grid_space`
  (file `src/components/container_transform.py`) — the layout planner;
* `ContainerTransform.apply_transform` (same file) — the compositor with the
  black-frame fallback;
* `VideoPlayer.apply_container_transform` (file `src/video_player.py`) — the
  compositor variant with rotation and the cutout pre-crop.

Modelling conventions:

* Python float arithmetic is modelled as exact rational arithmetic over `ℚ`;
  decimal literals in the source (`0.02`, `1.5`, `0.3`, …) become the exact
  rationals they denote.
* The library rational operations `Rat.add`/`Rat.mul`/… are `@[irreducible]`
  and hence not kernel-executable, so the embedding uses the executable
  wrappers `qadd`/`qmul`/`qdiv`/`qsub` below, each proved equal to the
  corresponding standard operation.
* `random.*` draws are demonic: every random call reads a value from an
  explicit oracle (one `IterDraws` record per planner loop iteration), and
  `ValidDraws` constrains each draw to exactly the interval the corresponding
  `random.randint`/`random.uniform`/`random.random`/`random.choice` call can
  produce.  Universal theorems quantify over all oracles; counterexamples
  instantiate one concrete, reachable draw sequence.
* Python `int()` is truncation toward zero (`pyInt`); Python `//` on the
  integers appearing here is floor division (`Int.fdiv`).
* `cv2.resize` is external to the repository: only its dimension contract is
  modelled (the output has exactly the requested dimensions, and a zero or
  negative requested dimension raises).  Its pixel content is an arbitrary
  parameter `g` of the compositor embeddings.  `cv2.rotate` for exact
  multiples of 90° is modelled concretely.
* Exceptions are modelled with `Except Unit`; a Python function that can let
  an exception escape is embedded as an `Except`-valued function.
-/

/-- Executable floor of a rational (`⌊q⌋`; the `FloorRing` instance does not
kernel-reduce). -/
def ratFloor (q : ℚ) : ℤ := q.num / q.den

/-- Python `int()`: truncation toward zero. -/
def pyInt (q : ℚ) : ℤ := if 0 ≤ q then ratFloor q else -(ratFloor (-q))

/-- Executable addition on `ℚ`. -/
def qadd (a b : ℚ) : ℚ := Rat.divInt (a.num * b.den + b.num * a.den) (a.den * b.den)

/-- Arithmetic rounding, used to state the spec's `round(...)` formulas. -/
def specRound (q : ℚ) : ℤ := ratFloor (qadd q (mkRat 1 2))

/-- Executable multiplication on `ℚ`. -/
def qmul (a b : ℚ) : ℚ := Rat.divInt (a.num * b.num) (a.den * b.den)

/-- Executable division on `ℚ`. -/
def qdiv (a b : ℚ) : ℚ := Rat.divInt (a.num * b.den) (a.den * b.num)

/-- Executable subtraction on `ℚ`. -/
def qsub (a b : ℚ) : ℚ := Rat.divInt (a.num * b.den - b.num * a.den) (a.den * b.den)

/-- A decoded frame / image: a pixel buffer with known width and height
(3-channel, 8-bit in the source; the channel triple is `ℕ × ℕ × ℕ`). -/
structure Image where
  width : ℕ
  height : ℕ
  pix : ℕ → ℕ → ℕ × ℕ × ℕ

/-- `np.zeros((h, w, 3), dtype=np.uint8)`: the solid black image. -/
def allBlackImage (w h : ℕ) : Image := ⟨w, h, fun _ _ => (0, 0, 0)⟩

/-- Every pixel inside the bounds is black. -/
def IsBlack (img : Image) : Prop :=
  ∀ x < img.width, ∀ y < img.height, img.pix x y = (0, 0, 0)

/-- NumPy slice `img[y0:y0+h, x0:x0+w]`: out-of-range parts are silently
clipped, so the result can be smaller than `w × h` (all starts occurring in
the embedded code are nonnegative; negative extents give an empty axis). -/
def sliceImg (img : Image) (x0 y0 w h : ℤ) : Image :=
  let xs := x0.toNat
  let ys := y0.toNat
  let xe := min (x0 + w).toNat img.width
  let ye := min (y0 + h).toNat img.height
  ⟨xe - xs, ye - ys, fun x y => img.pix (xs + x) (ys + y)⟩

/-- `cv2.ROTATE_90_CLOCKWISE` on an exact pixel grid. -/
def rotate90cw (img : Image) : Image :=
  ⟨img.height, img.width, fun x y => img.pix y (img.height - 1 - x)⟩

/-- `cv2.ROTATE_180`. -/
def rotate180 (img : Image) : Image :=
  ⟨img.width, img.height, fun x y => img.pix (img.width - 1 - x) (img.height - 1 - y)⟩

/-- `cv2.ROTATE_90_COUNTERCLOCKWISE`. -/
def rotate90ccw (img : Image) : Image :=
  ⟨img.height, img.width, fun x y => img.pix (img.width - 1 - y) x⟩

/-- The rotation step of `apply_container_transform`: rotation `0` is skipped,
`90`/`180`/`270` select a `cv2.rotate` mode, and any other value raises a
`KeyError` from the rotation-mode dict lookup (modelled as `none`). -/
def rotateFrame (rotation : ℕ) (img : Image) : Option Image :=
  if rotation = 0 then some img
  else if rotation = 90 then some (rotate90cw img)
  else if rotation = 180 then some (rotate180 img)
  else if rotation = 270 then some (rotate90ccw img)
  else none

/-- One container settings dict, as produced by either planner and consumed by
both compositors. -/
structure Container where
  widthScale : ℚ
  heightScale : ℚ
  position : ℤ × ℤ
  cutoutSize : ℚ
  cutoutX : ℚ
  cutoutY : ℚ
  isVertical : Bool
  rotation : ℕ
deriving DecidableEq

/-- Fallback element for list indexing in closed concrete statements. -/
def defaultContainer : Container :=
  ⟨0, 0, (0, 0), 0, 0, 0, false, 0⟩

/-- The `ContainerTransform` object: constructor arguments plus the derived
grid geometry computed in `__init__`.  The grid is fixed at 12 columns × 8
rows in the source. -/
structure ContainerTransform where
  displayWidth : ℕ
  displayHeight : ℕ
  minObjects : ℕ
  maxObjects : ℕ
  spacing : ℤ
  cellWidth : ℚ
  cellHeight : ℚ

/-- Number of coarse grid columns (`self.grid_cols = 12`). -/
def gridCols : ℕ := 12

/-- Number of coarse grid rows (`self.grid_rows = 8`). -/
def gridRows : ℕ := 8

/-- `ContainerTransform.__init__`: `spacing = int(min(W, H) * 0.02)`,
`cell_width = (W - 13 * spacing) / 12`, `cell_height = (H - 9 * spacing) / 8`. -/
def mkContainerTransform (w h minObjects maxObjects : ℕ) : ContainerTransform :=
  let spacing : ℤ := pyInt (qmul ((min w h : ℕ) : ℚ) (mkRat 1 50))
  { displayWidth := w
    displayHeight := h
    minObjects := minObjects
    maxObjects := maxObjects
    spacing := spacing
    cellWidth := qdiv (qsub (w : ℚ) (qmul ((gridCols : ℕ) + 1 : ℕ) (spacing : ℚ))) (gridCols : ℚ)
    cellHeight := qdiv (qsub (h : ℚ) (qmul ((gridRows : ℕ) + 1 : ℕ) (spacing : ℚ))) (gridRows : ℚ) }

/-- The coarse occupancy grid `self.grid`: `True` = occupied. -/
def Grid : Type := ℕ → ℕ → Bool

/-- The empty grid (`[[False] * 12] * 8`). -/
def emptyGrid : Grid := fun _ _ => false

/-- `_is_space_available`: every cell of the `height_cells × width_cells`
rectangle anchored at `(start_row, start_col)` must be in bounds and free. -/
def isSpaceAvailable (g : Grid) (startRow startCol wCells hCells : ℕ) : Bool :=
  (List.range hCells).all fun dr =>
    (List.range wCells).all fun dc =>
      decide (startRow + dr < gridRows) && decide (startCol + dc < gridCols) &&
        !(g (startRow + dr) (startCol + dc))

/-- The candidate list built by `_find_grid_space`: all anchors, in row-major
order, where the span fits without overlap (`range(grid_rows - height_cells
+ 1)` × `range(grid_cols - width_cells + 1)`, filtered). -/
def availablePositions (g : Grid) (wCells hCells : ℕ) : List (ℕ × ℕ) :=
  (List.range (gridRows + 1 - hCells)).flatMap fun row =>
    (List.range (gridCols + 1 - wCells)).filterMap fun col =>
      if isSpaceAvailable g row col wCells hCells then some (row, col) else none

/-- `_occupy_grid_space`: mark the rectangle's cells occupied. -/
def occupyGrid (g : Grid) (startRow startCol wCells hCells : ℕ) : Grid :=
  fun r c =>
    g r c || (decide (startRow ≤ r) && decide (r < startRow + hCells) &&
              decide (startCol ≤ c) && decide (c < startCol + wCells))

/-- The three weighted container types of `generate_container_settings`. -/
inductive CntType where
  | verticalStripe
  | horizontalStripe
  | square
deriving DecidableEq

/-- The random draws one loop iteration of `generate_container_settings` can
consume, one field per `random.*` call site. -/
structure IterDraws where
  ctype : CntType
  vwc : ℕ
  vhc : ℕ
  hwc : ℕ
  hhc : ℕ
  sqSize : ℕ
  sqVert : Bool
  adjChance : ℚ
  adjAmt : ℕ
  pick : ℕ
  sv : ℚ
  jx : ℚ
  jy : ℚ
  cutSize : ℚ
  cutX : ℚ
  cutY : ℚ
  rotPick : Bool
deriving DecidableEq

/-- Draws consumed when the oracle list is exhausted (only relevant beyond the
loop's own bound; all values lie in their legal ranges). -/
def defaultDraws : IterDraws :=
  { ctype := .square, vwc := 1, vhc := 3, hwc := 3, hhc := 1, sqSize := 2
    sqVert := false, adjChance := mkRat 1 2, adjAmt := 1, pick := 0, sv := 1
    jx := 0, jy := 0, cutSize := mkRat 1 2, cutX := 0, cutY := 0, rotPick := false }

/-- Grid-cell span and orientation selected for one attempt: the weighted type
choice, the per-type `randint` spans, and the 30% size adjustment. -/
structure CellChoice where
  wCells : ℕ
  hCells : ℕ
  isVert : Bool

/-- The span/orientation computation at the top of the placement loop: the
per-type `randint` spans and the 30% size adjustment (which only affects the
stripe type that was drawn). -/
def chooseCells (d : IterDraws) : CellChoice :=
  match d.ctype with
  | .verticalStripe =>
    if d.adjChance < mkRat 3 10 then ⟨d.vwc, min 8 (d.vhc + d.adjAmt), true⟩
    else ⟨d.vwc, d.vhc, true⟩
  | .horizontalStripe =>
    if d.adjChance < mkRat 3 10 then ⟨min 12 (d.hwc + d.adjAmt), d.hhc, false⟩
    else ⟨d.hwc, d.hhc, false⟩
  | .square => ⟨d.sqSize, d.sqSize, d.sqVert⟩

/-- The container dict built once a grid anchor has been found: scale jitter,
position jitter, the bounds clamp, cutout parameters and rotation. -/
def mkContainer (ct : ContainerTransform) (d : IterDraws) (row col wc hc : ℕ)
    (isVert : Bool) : Container :=
  let baseWidthScale := qdiv (qmul (wc : ℚ) ct.cellWidth) (ct.displayWidth : ℚ)
  let baseHeightScale := qdiv (qmul (hc : ℚ) ct.cellHeight) (ct.displayHeight : ℚ)
  let widthScale := qmul baseWidthScale d.sv
  let heightScale := qmul baseHeightScale d.sv
  let x0 : ℤ := pyInt (qadd (qadd (qmul (col : ℚ) (qadd ct.cellWidth (ct.spacing : ℚ)))
    (ct.spacing : ℚ)) d.jx)
  let y0 : ℤ := pyInt (qadd (qadd (qmul (row : ℚ) (qadd ct.cellHeight (ct.spacing : ℚ)))
    (ct.spacing : ℚ)) d.jy)
  let x := max ct.spacing (min x0 ((ct.displayWidth : ℤ) -
    pyInt (qmul widthScale (ct.displayWidth : ℚ)) - ct.spacing))
  let y := max ct.spacing (min y0 ((ct.displayHeight : ℤ) -
    pyInt (qmul heightScale (ct.displayHeight : ℚ)) - ct.spacing))
  { widthScale := widthScale
    heightScale := heightScale
    position := (x, y)
    cutoutSize := d.cutSize
    cutoutX := d.cutX
    cutoutY := d.cutY
    isVertical := isVert
    rotation := if isVert then (if d.rotPick then 90 else 0)
                else (if d.rotPick then 270 else 0) }

/-- A placement: the appended container dict together with the grid rectangle
(`row`, `col`, `width_cells`, `height_cells`) occupied for it. -/
structure Placement where
  container : Container
  row : ℕ
  col : ℕ
  wCells : ℕ
  hCells : ℕ
deriving DecidableEq

/-- Loop state of `generate_container_settings`: the occupancy grid, the
containers placed so far (with their grid rectangles), the `placed` counter
and a ghost count of executed loop iterations. -/
structure GenState where
  grid : Grid
  placements : List Placement
  placed : ℕ
  iters : ℕ

/-- The initial loop state. -/
def initGenState : GenState := ⟨emptyGrid, [], 0, 0⟩

/-- One iteration of the `while placed < count and attempts > 0` body: select
type and span, scan the grid, and on success occupy the cells and append the
new container. -/
def genStep (ct : ContainerTransform) (d : IterDraws) (st : GenState) : GenState :=
  match availablePositions st.grid (chooseCells d).wCells (chooseCells d).hCells with
  | [] => st
  | a :: rest =>
    let pos := (a :: rest).getD (d.pick % (a :: rest).length) a
    { grid := occupyGrid st.grid pos.1 pos.2 (chooseCells d).wCells (chooseCells d).hCells
      placements := st.placements ++
        [⟨mkContainer ct d pos.1 pos.2 (chooseCells d).wCells (chooseCells d).hCells
            (chooseCells d).isVert, pos.1, pos.2, (chooseCells d).wCells,
          (chooseCells d).hCells⟩]
      placed := st.placed + 1
      iters := st.iters }

/-- The bounded placement loop; the fuel argument is the `attempts` counter,
decremented once per iteration exactly as in the source. -/
def genLoop (ct : ContainerTransform) (count : ℕ) :
    ℕ → List IterDraws → GenState → GenState
  | 0, _, st => st
  | fuel + 1, ds, st =>
    if st.placed < count then
      let st1 := genStep ct (ds.headD defaultDraws) st
      genLoop ct count fuel ds.tail { st1 with iters := st1.iters + 1 }
    else st

/-- The oracle for one `generate_container_settings` call: the target-count
draw (`random.randint(min_objects, max_objects)`) and the per-iteration
draws. -/
structure GenOracle where
  count : ℕ
  draws : List IterDraws

/-- `generate_container_settings`, returning the final loop state
(`attempts = count * 3`). -/
def genRun (ct : ContainerTransform) (o : GenOracle) : GenState :=
  genLoop ct o.count (o.count * 3) o.draws initGenState

/-- `generate_container_settings`: the placements in placement order. -/
def generateContainerSettings (ct : ContainerTransform) (o : GenOracle) :
    List Placement :=
  (genRun ct o).placements

/-- The container dicts of a placement list (what the Python function actually
returns). -/
def containersOf (ps : List Placement) : List Container :=
  ps.map (·.container)

/-- The exact ranges the `random` calls of one loop iteration can produce:
`randint(a, b)` gives `[a, b]`, `random()` gives `[0, 1)`, `uniform(a, b)`
gives `[a, b]`, `choices`/`choice` picks are unconstrained indices. -/
def ValidDraws (s : ℤ) (d : IterDraws) : Prop :=
  (1 ≤ d.vwc ∧ d.vwc ≤ 3) ∧ (3 ≤ d.vhc ∧ d.vhc ≤ 6) ∧
  (3 ≤ d.hwc ∧ d.hwc ≤ 6) ∧ (1 ≤ d.hhc ∧ d.hhc ≤ 3) ∧
  (2 ≤ d.sqSize ∧ d.sqSize ≤ 4) ∧
  (0 ≤ d.adjChance ∧ d.adjChance < 1) ∧ (1 ≤ d.adjAmt ∧ d.adjAmt ≤ 2) ∧
  (mkRat 9 10 ≤ d.sv ∧ d.sv ≤ mkRat 11 10) ∧
  (-(s : ℚ) ≤ d.jx ∧ d.jx ≤ (s : ℚ)) ∧ (-(s : ℚ) ≤ d.jy ∧ d.jy ≤ (s : ℚ)) ∧
  (mkRat 1 5 ≤ d.cutSize ∧ d.cutSize ≤ mkRat 4 5) ∧
  (0 ≤ d.cutX ∧ d.cutX < 1) ∧ (0 ≤ d.cutY ∧ d.cutY < 1)

instance (s : ℤ) (d : IterDraws) : Decidable (ValidDraws s d) := by
  unfold ValidDraws
  infer_instance

/-- A reachable oracle for one `generate_container_settings` call on the given
`ContainerTransform`. -/
def ValidOracle (ct : ContainerTransform) (o : GenOracle) : Prop :=
  ct.minObjects ≤ o.count ∧ o.count ≤ ct.maxObjects ∧
  ∀ d ∈ o.draws, ValidDraws ct.spacing d

instance (ct : ContainerTransform) (o : GenOracle) : Decidable (ValidOracle ct o) := by
  unfold ValidOracle
  infer_instance

/-- The aspect-compare resize of `apply_transform` (lines 170–179): the
limiting dimension is set to the target exactly and the other is scaled by
the same factor and truncated. -/
def fillResizeDims (fw fh : ℕ) (tw th : ℤ) : ℤ × ℤ :=
  if qdiv (tw : ℚ) (th : ℚ) < qdiv (fw : ℚ) (fh : ℚ) then
    (pyInt (qmul (fw : ℚ) (qdiv (th : ℚ) (fh : ℚ))), th)
  else
    (tw, pyInt (qmul (fh : ℚ) (qdiv (tw : ℚ) (fw : ℚ))))

/-- The max-scale resize of `apply_container_transform` (lines 172–181):
`scale = max(target_w / w, target_h / h)`, then both dimensions are scaled
and truncated. -/
def fillScaleDims (fw fh : ℕ) (tw th : ℤ) : ℤ × ℤ :=
  (pyInt (qmul (fw : ℚ) (max (qdiv (tw : ℚ) (fw : ℚ)) (qdiv (th : ℚ) (fh : ℚ)))),
   pyInt (qmul (fh : ℚ) (max (qdiv (tw : ℚ) (fw : ℚ)) (qdiv (th : ℚ) (fh : ℚ)))))

/-- The `try:` block of `apply_transform`: `.error ()` marks any raised
exception (invalid frame, `ZeroDivisionError` on a zero target height, or a
`cv2.resize` error on an empty size).  `g` is the pixel content of
`cv2.resize`, which is external to the repository. -/
def tryTransform (g : Image → ℕ → ℕ → ℕ → ℕ → ℕ × ℕ × ℕ)
    (frame? : Option Image) (tw th : ℤ) : Except Unit Image :=
  match frame? with
  | none => .error ()
  | some frame =>
    if frame.width = 0 ∨ frame.height = 0 then .error ()
    else if th = 0 then .error ()
    else
      let nd := fillResizeDims frame.width frame.height tw th
      if nd.1 ≤ 0 ∨ nd.2 ≤ 0 then .error ()
      else
        let nw := nd.1.toNat
        let nh := nd.2.toNat
        let resized : Image := ⟨nw, nh, g frame nw nh⟩
        let xs : ℤ := max 0 ((nd.1 - tw) / 2)
        let ys : ℤ := max 0 ((nd.2 - th) / 2)
        let cropped := sliceImg resized xs ys tw th
        if (cropped.height : ℤ) = th ∧ (cropped.width : ℤ) = tw then .ok cropped
        else if tw ≤ 0 ∨ th ≤ 0 ∨ cropped.width = 0 ∨ cropped.height = 0 then .error ()
        else .ok ⟨tw.toNat, th.toNat, g cropped tw.toNat th.toNat⟩

/-- `ContainerTransform.apply_transform`: target dimensions are
`int(display_dim * scale)`; any exception in the `try:` block falls back to a
black frame of the target size (`np.zeros` itself raises when a target
dimension is negative, which cannot happen for planner-produced scales). -/
def applyTransformE (g : Image → ℕ → ℕ → ℕ → ℕ → ℕ × ℕ × ℕ)
    (ct : ContainerTransform) (c : Container) (frame? : Option Image) :
    Except Unit Image :=
  let tw := pyInt (qmul (ct.displayWidth : ℚ) c.widthScale)
  let th := pyInt (qmul (ct.displayHeight : ℚ) c.heightScale)
  match tryTransform g frame? tw th with
  | .ok img => .ok img
  | .error _ => if tw < 0 ∨ th < 0 then .error ()
                else .ok (allBlackImage tw.toNat th.toNat)

/-- The dimensions of a successfully returned image. -/
def okDims : Except Unit Image → Option (ℕ × ℕ)
  | .ok img => some (img.width, img.height)
  | .error _ => none

/-- Whether the call let an exception escape. -/
def isErrE {α : Type} : Except Unit α → Bool
  | .ok _ => false
  | .error _ => true

/-- A successful result that is solid black. -/
def IsBlackOk : Except Unit Image → Prop
  | .ok img => IsBlack img
  | .error _ => False

/-- The cutout window computed by `apply_container_transform` (lines 152–167):
`crop_size` and the clamps use `width`/`height` captured from the frame
*before* the rotation, while the slice is applied to the rotated frame
(whose dimensions `rotW × rotH` are recorded here). -/
structure CutWin where
  rotW : ℕ
  rotH : ℕ
  cropW : ℤ
  cropH : ℤ
  startX : ℤ
  startY : ℤ

/-- Compute the cutout window of `apply_container_transform` for a frame
(assuming the rotation value is one of `{0, 90, 180, 270}`). -/
def cutoutWindow (c : Container) (frame : Image) : CutWin :=
  let w0 := frame.width
  let h0 := frame.height
  let f1 := (rotateFrame c.rotation frame).getD frame
  let cropSize : ℤ := pyInt (qmul ((min w0 h0 : ℕ) : ℚ) c.cutoutSize)
  let cropW0 : ℤ := if c.isVertical then cropSize else pyInt (qmul (cropSize : ℚ) (mkRat 3 2))
  let cropH0 : ℤ := if c.isVertical then pyInt (qmul (cropSize : ℚ) (mkRat 3 2)) else cropSize
  let cropW := min cropW0 (w0 : ℤ)
  let cropH := min cropH0 (h0 : ℤ)
  let startX : ℤ := pyInt (qmul (qsub (w0 : ℚ) (cropW : ℚ)) c.cutoutX)
  let startY : ℤ := pyInt (qmul (qsub (h0 : ℚ) (cropH : ℚ)) c.cutoutY)
  ⟨f1.width, f1.height, cropW, cropH, startX, startY⟩

/-- `VideoPlayer.apply_container_transform`: rotation, cutout pre-crop,
max-scale resize and the padded center copy.  Unlike `apply_transform` there
is no `try/except`, so `.error ()` is an exception escaping to the caller
(`KeyError` on an unexpected rotation, `ZeroDivisionError` when the crop is
empty, or a `cv2.resize` error on an empty size). -/
def applyContainerTransformE (g : Image → ℕ → ℕ → ℕ → ℕ → ℕ × ℕ × ℕ)
    (displayWidth displayHeight : ℕ) (c : Container) (frame : Image) :
    Except Unit (Image × ℤ × ℤ) :=
  let tw : ℤ := pyInt (qmul (displayWidth : ℚ) c.widthScale)
  let th : ℤ := pyInt (qmul (displayHeight : ℚ) c.heightScale)
  match rotateFrame c.rotation frame with
  | none => .error ()
  | some f1 =>
    let win := cutoutWindow c frame
    let f2 := sliceImg f1 win.startX win.startY win.cropW win.cropH
    if f2.width = 0 ∨ f2.height = 0 then .error ()
    else
      let nd := fillScaleDims f2.width f2.height tw th
      if nd.1 ≤ 0 ∨ nd.2 ≤ 0 then .error ()
      else
        let nw := nd.1.toNat
        let nh := nd.2.toNat
        let resized : Image := ⟨nw, nh, g f2 nw nh⟩
        let sx : ℤ := Int.fdiv (nd.1 - tw) 2
        let sy : ℤ := Int.fdiv (nd.2 - th) 2
        let ex : ℤ := min (sx + tw) nd.1
        let ey : ℤ := min (sy + th) nd.2
        let validH : ℤ := min (ey - sy) th
        let validW : ℤ := min (ex - sx) tw
        let out : Image := ⟨tw.toNat, th.toNat, fun x y =>
          if x < validW.toNat ∧ y < validH.toNat then
            resized.pix (sx.toNat + x) (sy.toNat + y)
          else (0, 0, 0)⟩
        .ok (out, tw, th)

/-- The target width exactly as the spec words it: `round(canvas.width *
spec.width_fraction)`, clamped to be at least 1.  (Refinement-side
definition, written from the spec, to compare with the code's `int(...)`.) -/
def specTargetWidth (ct : ContainerTransform) (c : Container) : ℤ :=
  max 1 (specRound (qmul (ct.displayWidth : ℚ) c.widthScale))

/-- The spec-side target height: `round(canvas.height * spec.height_fraction)`
clamped to be at least 1. -/
def specTargetHeight (ct : ContainerTransform) (c : Container) : ℤ :=
  max 1 (specRound (qmul (ct.displayHeight : ℚ) c.heightScale))

/-- Cell `(r, c)` of the coarse grid lies in the rectangle of a placement. -/
def inRect (p : Placement) (r c : ℕ) : Prop :=
  p.row ≤ r ∧ r < p.row + p.hCells ∧ p.col ≤ c ∧ c < p.col + p.wCells

/-- Two placements share no coarse grid cell. -/
def CellDisjoint (p q : Placement) : Prop :=
  ∀ r c, ¬(inRect p r c ∧ inRect q r c)

/-- The grid invariant tying the occupancy mask to the placements made so
far. -/
def GridInv (st : GenState) : Prop :=
  st.placements.Pairwise CellDisjoint ∧
  ∀ p ∈ st.placements, ∀ r c, inRect p r c → st.grid r c = true

/-- A concrete `cv2.resize` pixel-content instantiation (all black). -/
def gZero : Image → ℕ → ℕ → ℕ → ℕ → ℕ × ℕ × ℕ := fun _ _ _ _ _ => (0, 0, 0)

/-- Planner on a 100 × 2000 canvas asked for exactly one container. -/
def cxCT : ContainerTransform := mkContainerTransform 100 2000 1 1

/-- A reachable draw: vertical stripe, span 1 × 6 widened to 1 × 8, first free
anchor, scale jitter at the 1.1 extreme, no position jitter. -/
def cxTall : IterDraws :=
  { ctype := .verticalStripe, vwc := 1, vhc := 6, hwc := 3, hhc := 1, sqSize := 2
    sqVert := false, adjChance := 0, adjAmt := 2, pick := 0, sv := mkRat 11 10
    jx := 0, jy := 0, cutSize := mkRat 1 2, cutX := 0, cutY := 0, rotPick := false }

/-- The oracle drawing `count = 1` and then `cxTall`. -/
def cxOracle : GenOracle := ⟨1, [cxTall]⟩

/-- The containers returned by the concrete planner run. -/
def cxPlan : List Container := containersOf (generateContainerSettings cxCT cxOracle)

/-- Planner on a 100 × 100 canvas asked for exactly one container, with the
default draws (a 2 × 2 square, no adjustments). -/
def wCT : ContainerTransform := mkContainerTransform 100 100 1 1

/-- Witness oracle: one iteration of default draws. -/
def wOracle : GenOracle := ⟨1, [defaultDraws]⟩

/-- Compositor setup for the target-rounding comparison: 100 × 100 canvas,
`width_scale = 0.035` (pixel width 3.5), `height_scale = 0.5`. -/
def ctA : ContainerTransform := mkContainerTransform 100 100 3 6

/-- The container spec whose target width rounds to 4 but truncates to 3. -/
def cA : Container :=
  { widthScale := mkRat 7 200, heightScale := mkRat 1 2, position := (0, 0)
    cutoutSize := mkRat 1 2, cutoutX := 0, cutoutY := 0, isVertical := false
    rotation := 0 }

/-- A valid all-white 10 × 10 source frame. -/
def frameA : Option Image := some ⟨10, 10, fun _ _ => (255, 255, 255)⟩

/-- A container spec with `cutout_size = 0.3` (within the `VideoPlayer`
range [0.3, 0.7]) and no rotation. -/
def c2x : Container :=
  { widthScale := mkRat 1 2, heightScale := mkRat 1 2, position := (0, 0)
    cutoutSize := mkRat 3 10, cutoutX := mkRat 1 2, cutoutY := mkRat 1 2
    isVertical := true, rotation := 0 }

/-- A valid 1 × 1 source frame (its cutout crop collapses to zero size). -/
def frame1 : Image := ⟨1, 1, fun _ _ => (7, 7, 7)⟩

/-- A horizontal container spec rotated by 90°. -/
def c9 : Container :=
  { widthScale := mkRat 1 2, heightScale := mkRat 1 2, position := (0, 0)
    cutoutSize := mkRat 4 5, cutoutX := mkRat 9 10, cutoutY := 0
    isVertical := false, rotation := 90 }

/-- A 200-wide, 100-tall source frame; rotating by 90° swaps its sides. -/
def frame9 : Image := ⟨200, 100, fun _ _ => (0, 0, 0)⟩

lemma ratFloor_eq (q : ℚ) : ratFloor q = ⌊q⌋ := Rat.floor_def.symm

lemma qadd_eq (a b : ℚ) : qadd a b = a + b := by
  have ha : ((a.den : ℚ)) ≠ 0 := Nat.cast_ne_zero.mpr a.den_nz
  have hb : ((b.den : ℚ)) ≠ 0 := Nat.cast_ne_zero.mpr b.den_nz
  rw [qadd, Rat.divInt_eq_div]
  conv_rhs => rw [← Rat.num_div_den a, ← Rat.num_div_den b]
  push_cast
  field_simp

lemma qmul_eq (a b : ℚ) : qmul a b = a * b := by
  have ha : ((a.den : ℚ)) ≠ 0 := Nat.cast_ne_zero.mpr a.den_nz
  have hb : ((b.den : ℚ)) ≠ 0 := Nat.cast_ne_zero.mpr b.den_nz
  rw [qmul, Rat.divInt_eq_div]
  conv_rhs => rw [← Rat.num_div_den a, ← Rat.num_div_den b]
  push_cast
  field_simp

lemma qsub_eq (a b : ℚ) : qsub a b = a - b := by
  have ha : ((a.den : ℚ)) ≠ 0 := Nat.cast_ne_zero.mpr a.den_nz
  have hb : ((b.den : ℚ)) ≠ 0 := Nat.cast_ne_zero.mpr b.den_nz
  rw [qsub, Rat.divInt_eq_div]
  conv_rhs => rw [← Rat.num_div_den a, ← Rat.num_div_den b]
  push_cast
  field_simp
  ring

lemma qdiv_eq (a b : ℚ) : qdiv a b = a / b := by
  rcases eq_or_ne b 0 with rfl | hb
  · rw [qdiv]
    simp [Rat.num_ofNat]
  · have ha : ((a.den : ℚ)) ≠ 0 := Nat.cast_ne_zero.mpr a.den_nz
    have hbd : ((b.den : ℚ)) ≠ 0 := Nat.cast_ne_zero.mpr b.den_nz
    have hbn : ((b.num : ℚ)) ≠ 0 := Int.cast_ne_zero.mpr (Rat.num_ne_zero.mpr hb)
    rw [qdiv, Rat.divInt_eq_div]
    conv_rhs => rw [← Rat.num_div_den a, ← Rat.num_div_den b]
    push_cast
    field_simp

lemma specRound_eq (q : ℚ) : specRound q = round q := by
  rw [round_eq, specRound, qadd_eq, ratFloor_eq]
  norm_num

lemma pyInt_eq_floor {q : ℚ} (h : 0 ≤ q) : pyInt q = ⌊q⌋ := by
  simp [pyInt, h, ratFloor_eq]

lemma pyInt_nonneg {q : ℚ} (h : 0 ≤ q) : 0 ≤ pyInt q := by
  rw [pyInt_eq_floor h]
  exact Int.floor_nonneg.mpr h

lemma pyInt_le {q : ℚ} (h : 0 ≤ q) : (pyInt q : ℚ) ≤ q := by
  rw [pyInt_eq_floor h]
  exact Int.floor_le q

lemma le_pyInt {n : ℤ} {q : ℚ} (h : (n : ℚ) ≤ q) (h0 : 0 ≤ q) : n ≤ pyInt q := by
  rw [pyInt_eq_floor h0]
  exact Int.le_floor.mpr h

lemma getD_mem {α : Type} (l : List α) (n : ℕ) (d : α) (hd : d ∈ l) : l.getD n d ∈ l := by
  rw [List.getD_eq_getElem?_getD]
  cases h : l[n]? with
  | none => simpa using hd
  | some x => simp [List.getElem?_mem h]

/-- `genStep` either fails the scan and leaves the state unchanged, or appends
exactly one placement anchored at a scanned-free grid position. -/
lemma genStep_cases (ct : ContainerTransform) (d : IterDraws) (st : GenState) :
    genStep ct d st = st ∨
    ∃ row col,
      (row, col) ∈ availablePositions st.grid (chooseCells d).wCells (chooseCells d).hCells ∧
      genStep ct d st =
        { grid := occupyGrid st.grid row col (chooseCells d).wCells (chooseCells d).hCells
          placements := st.placements ++
            [⟨mkContainer ct d row col (chooseCells d).wCells (chooseCells d).hCells
                (chooseCells d).isVert, row, col, (chooseCells d).wCells,
              (chooseCells d).hCells⟩]
          placed := st.placed + 1
          iters := st.iters } := by
  cases h : availablePositions st.grid (chooseCells d).wCells (chooseCells d).hCells with
  | nil => left; simp [genStep, h]
  | cons a rest =>
    right
    refine ⟨((a :: rest).getD (d.pick % (a :: rest).length) a).1,
      ((a :: rest).getD (d.pick % (a :: rest).length) a).2, ?_, ?_⟩
    · rw [← h]
      have : (a :: rest).getD (d.pick % (a :: rest).length) a ∈ a :: rest :=
        getD_mem _ _ _ (List.mem_cons_self a rest)
      rw [← h] at this
      simpa using this
    · simp [genStep, h]

lemma genStep_iters (ct : ContainerTransform) (d : IterDraws) (st : GenState) :
    (genStep ct d st).iters = st.iters := by
  rcases genStep_cases ct d st with h | ⟨row, col, _, h⟩ <;> rw [h]

lemma genStep_placed_le (ct : ContainerTransform) (d : IterDraws) (st : GenState) :
    (genStep ct d st).placed ≤ st.placed + 1 := by
  rcases genStep_cases ct d st with h | ⟨row, col, _, h⟩ <;> rw [h] <;> omega

lemma genStep_placed_length (ct : ContainerTransform) (d : IterDraws) (st : GenState)
    (h : st.placed = st.placements.length) :
    (genStep ct d st).placed = (genStep ct d st).placements.length := by
  rcases genStep_cases ct d st with heq | ⟨row, col, _, heq⟩ <;> rw [heq] <;> simp [h]

lemma genLoop_iters_le (ct : ContainerTransform) (count : ℕ) :
    ∀ (fuel : ℕ) (ds : List IterDraws) (st : GenState),
      (genLoop ct count fuel ds st).iters ≤ st.iters + fuel := by
  intro fuel
  induction fuel with
  | zero => intro ds st; simp [genLoop]
  | succ n ih =>
    intro ds st
    rw [genLoop]
    split
    · refine le_trans (ih ds.tail _) ?_
      simp [genStep_iters]
      omega
    · omega

lemma genLoop_placed (ct : ContainerTransform) (count : ℕ) :
    ∀ (fuel : ℕ) (ds : List IterDraws) (st : GenState),
      st.placed ≤ count → st.placed = st.placements.length →
      (genLoop ct count fuel ds st).placed ≤ count ∧
      (genLoop ct count fuel ds st).placed =
        (genLoop ct count fuel ds st).placements.length := by
  intro fuel
  induction fuel with
  | zero => intro ds st h1 h2; exact ⟨h1, h2⟩
  | succ n ih =>
    intro ds st h1 h2
    rw [genLoop]
    split
    · rename_i hlt
      refine ih ds.tail _ ?_ ?_
      · simp only [GenState.placed]
        have := genStep_placed_le ct (ds.headD defaultDraws) st
        omega
      · simp only [GenState.placed, GenState.placements]
        exact genStep_placed_length ct (ds.headD defaultDraws) st h2
    · exact ⟨h1, h2⟩

lemma isSpaceAvailable_free {g : Grid} {row col wc hc : ℕ}
    (h : isSpaceAvailable g row col wc hc = true) :
    ∀ r c, row ≤ r → r < row + hc → col ≤ c → c < col + wc → g r c = false := by
  intro r c h1 h2 h3 h4
  unfold isSpaceAvailable at h
  rw [List.all_eq_true] at h
  have hr := h (r - row) (List.mem_range.mpr (by omega))
  rw [List.all_eq_true] at hr
  have hc2 := hr (c - col) (List.mem_range.mpr (by omega))
  have er : row + (r - row) = r := by omega
  have ec : col + (c - col) = c := by omega
  rw [er, ec] at hc2
  simp only [Bool.and_eq_true, Bool.not_eq_true'] at hc2
  exact hc2.2

lemma mem_availablePositions {g : Grid} {wc hc r c : ℕ}
    (h : (r, c) ∈ availablePositions g wc hc) :
    isSpaceAvailable g r c wc hc = true := by
  unfold availablePositions at h
  rw [List.mem_flatMap] at h
  obtain ⟨row, _, hmem⟩ := h
  rw [List.mem_filterMap] at hmem
  obtain ⟨col, _, hif⟩ := hmem
  by_cases hav : isSpaceAvailable g row col wc hc
  · simp only [hav, if_true, Option.some_inj] at hif
    obtain ⟨rfl, rfl⟩ := Prod.mk.inj hif
    exact hav
  · simp [hav] at hif

lemma occupyGrid_true_iff (g : Grid) (row col wc hc r c : ℕ) :
    occupyGrid g row col wc hc r c = true ↔
      g r c = true ∨ (row ≤ r ∧ r < row + hc ∧ col ≤ c ∧ c < col + wc) := by
  unfold occupyGrid
  simp only [Bool.or_eq_true, Bool.and_eq_true, decide_eq_true_eq]
  tauto

lemma genStep_gridInv (ct : ContainerTransform) (d : IterDraws) (st : GenState)
    (h : GridInv st) : GridInv (genStep ct d st) := by
  rcases genStep_cases ct d st with heq | ⟨row, col, hmem, heq⟩
  · rw [heq]; exact h
  · have hav := mem_availablePositions hmem
    have hfree := isSpaceAvailable_free hav
    rw [heq]
    constructor
    · rw [List.pairwise_append]
      refine ⟨h.1, List.pairwise_singleton _ _, ?_⟩
      intro p hp q hq
      rw [List.mem_singleton] at hq
      subst hq
      intro r c ⟨hpin, hqin⟩
      have hold := h.2 p hp r c hpin
      have hnew : st.grid r c = false := by
        rcases hqin with ⟨h1, h2, h3, h4⟩
        exact hfree r c h1 h2 h3 h4
      rw [hold] at hnew
      exact Bool.noConfusion hnew
    · intro p hp r c hin
      rw [List.mem_append] at hp
      simp only
      rw [occupyGrid_true_iff]
      rcases hp with hp | hp
      · exact Or.inl (h.2 p hp r c hin)
      · rw [List.mem_singleton] at hp
        subst hp
        rcases hin with ⟨h1, h2, h3, h4⟩
        exact Or.inr ⟨h1, h2, h3, h4⟩

lemma genLoop_gridInv (ct : ContainerTransform) (count : ℕ) :
    ∀ (fuel : ℕ) (ds : List IterDraws) (st : GenState),
      GridInv st → GridInv (genLoop ct count fuel ds st) := by
  intro fuel
  induction fuel with
  | zero => intro ds st h; exact h
  | succ n ih =>
    intro ds st h
    rw [genLoop]
    split
    · refine ih ds.tail _ ?_
      have := genStep_gridInv ct (ds.headD defaultDraws) st h
      unfold GridInv at this ⊢
      simpa using this
    · exact h

lemma mkRat_eq (n : ℤ) (d : ℕ) : (mkRat n d : ℚ) = (n : ℚ) / (d : ℚ) :=
  Rat.mkRat_eq_div n d

lemma mkCT_displayWidth (w h mo Mo : ℕ) :
    (mkContainerTransform w h mo Mo).displayWidth = w := rfl

lemma mkCT_displayHeight (w h mo Mo : ℕ) :
    (mkContainerTransform w h mo Mo).displayHeight = h := rfl

lemma mkCT_spacing (w h mo Mo : ℕ) :
    (mkContainerTransform w h mo Mo).spacing =
      pyInt (qmul ((min w h : ℕ) : ℚ) (mkRat 1 50)) := rfl

lemma spacing_nonneg (w h mo Mo : ℕ) : 0 ≤ (mkContainerTransform w h mo Mo).spacing := by
  rw [mkCT_spacing]
  apply pyInt_nonneg
  rw [qmul_eq, mkRat_eq]
  positivity

lemma spacing_le (w h mo Mo : ℕ) :
    ((mkContainerTransform w h mo Mo).spacing : ℚ) ≤ (w : ℚ) / 50 ∧
    ((mkContainerTransform w h mo Mo).spacing : ℚ) ≤ (h : ℚ) / 50 := by
  have h0 : (0 : ℚ) ≤ qmul ((min w h : ℕ) : ℚ) (mkRat 1 50) := by
    rw [qmul_eq, mkRat_eq]; positivity
  have hle : ((mkContainerTransform w h mo Mo).spacing : ℚ) ≤ ((min w h : ℕ) : ℚ) / 50 := by
    rw [mkCT_spacing]
    refine le_trans (pyInt_le h0) ?_
    rw [qmul_eq, mkRat_eq]
    push_cast
    ring_nf
    exact le_refl _
  constructor
  · refine le_trans hle ?_
    have : ((min w h : ℕ) : ℚ) ≤ (w : ℚ) := by exact_mod_cast Nat.min_le_left w h
    linarith
  · refine le_trans hle ?_
    have : ((min w h : ℕ) : ℚ) ≤ (h : ℚ) := by exact_mod_cast Nat.min_le_right w h
    linarith

lemma mkCT_cellWidth (w h mo Mo : ℕ) :
    (mkContainerTransform w h mo Mo).cellWidth =
      ((w : ℚ) - 13 * ((mkContainerTransform w h mo Mo).spacing : ℚ)) / 12 := by
  show qdiv (qsub (w : ℚ) (qmul ((gridCols : ℕ) + 1 : ℕ) _)) (gridCols : ℚ) = _
  rw [qdiv_eq, qsub_eq, qmul_eq, mkCT_spacing]
  norm_num [gridCols]

lemma mkCT_cellHeight (w h mo Mo : ℕ) :
    (mkContainerTransform w h mo Mo).cellHeight =
      ((h : ℚ) - 9 * ((mkContainerTransform w h mo Mo).spacing : ℚ)) / 8 := by
  show qdiv (qsub (h : ℚ) (qmul ((gridRows : ℕ) + 1 : ℕ) _)) (gridRows : ℚ) = _
  rw [qdiv_eq, qsub_eq, qmul_eq, mkCT_spacing]
  norm_num [gridRows]

lemma chooseCells_bounds {s : ℤ} {d : IterDraws} (h : ValidDraws s d) :
    (1 ≤ (chooseCells d).wCells ∧ (chooseCells d).wCells ≤ 8) ∧
    (1 ≤ (chooseCells d).hCells ∧ (chooseCells d).hCells ≤ 8) := by
  obtain ⟨⟨a1, a2⟩, ⟨b1, b2⟩, ⟨c1, c2⟩, ⟨e1, e2⟩, ⟨f1, f2⟩, _, ⟨g1, g2⟩, _⟩ := h
  by_cases hadj : d.adjChance < mkRat 3 10 <;> cases hct : d.ctype <;>
    simp [chooseCells, hct, hadj] <;> omega

lemma validDraws_defaultDraws {s : ℤ} (hs : 0 ≤ s) : ValidDraws s defaultDraws := by
  have hsq : (0 : ℚ) ≤ (s : ℚ) := by exact_mod_cast hs
  unfold ValidDraws defaultDraws
  norm_num [mkRat_eq]
  exact hs

/-- Every placement produced by a full planner run satisfies `P`, provided
every placement a single valid step can append satisfies `P`. -/
lemma genLoop_placements_prop (ct : ContainerTransform) (count : ℕ)
    (P : Placement → Prop)
    (hstep : ∀ (d : IterDraws) (st : GenState) (row col : ℕ),
      ValidDraws ct.spacing d →
      (row, col) ∈ availablePositions st.grid (chooseCells d).wCells (chooseCells d).hCells →
      P ⟨mkContainer ct d row col (chooseCells d).wCells (chooseCells d).hCells
          (chooseCells d).isVert, row, col, (chooseCells d).wCells, (chooseCells d).hCells⟩) :
    ∀ (fuel : ℕ) (ds : List IterDraws) (st : GenState),
      (∀ d ∈ ds, ValidDraws ct.spacing d) → ValidDraws ct.spacing defaultDraws →
      (∀ p ∈ st.placements, P p) →
      ∀ p ∈ (genLoop ct count fuel ds st).placements, P p := by
  intro fuel
  induction fuel with
  | zero => intro ds st _ _ hst; exact hst
  | succ n ih =>
    intro ds st hds hdef hst
    rw [genLoop]
    split
    · refine ih ds.tail _ (fun d hd => hds d (List.mem_of_mem_tail hd)) hdef ?_
      have hdvalid : ValidDraws ct.spacing (ds.headD defaultDraws) := by
        cases ds with
        | nil => exact hdef
        | cons a tl => exact hds a (List.mem_cons_self a tl)
      simp only [GenState.placements]
      rcases genStep_cases ct (ds.headD defaultDraws) st with heq | ⟨row, col, hmem, heq⟩
      · rw [heq]; exact hst
      · rw [heq]
        intro p hp
        rw [List.mem_append] at hp
        rcases hp with hp | hp
        · exact hst p hp
        · rw [List.mem_singleton] at hp
          subst hp
          exact hstep _ st row col hdvalid hmem
    · exact hst

/-- Specialization to a full `generate_container_settings` call. -/
lemma generateContainerSettings_prop (ct : ContainerTransform) (o : GenOracle)
    (hsp : 0 ≤ ct.spacing)
    (P : Placement → Prop)
    (hstep : ∀ (d : IterDraws) (st : GenState) (row col : ℕ),
      ValidDraws ct.spacing d →
      (row, col) ∈ availablePositions st.grid (chooseCells d).wCells (chooseCells d).hCells →
      P ⟨mkContainer ct d row col (chooseCells d).wCells (chooseCells d).hCells
          (chooseCells d).isVert, row, col, (chooseCells d).wCells, (chooseCells d).hCells⟩)
    (ho : ∀ d ∈ o.draws, ValidDraws ct.spacing d) :
    ∀ p ∈ generateContainerSettings ct o, P p := by
  unfold generateContainerSettings genRun
  exact genLoop_placements_prop ct o.count P hstep (o.count * 3) o.draws initGenState ho
    (validDraws_defaultDraws hsp) (by intro p hp; simp [initGenState] at hp)

/-- Core bound for the width scale: with at most 8 of the 12 grid columns and
scale jitter at most 1.1, the width fraction is positive, at most 1, and its
pixel size is at most `11/15 * (W - 13 * spacing)`. -/
lemma scale_core {W SQ wcQ sv : ℚ} (hW : 1 ≤ W) (hS0 : 0 ≤ SQ) (hS : SQ ≤ W / 50)
    (h1 : 1 ≤ wcQ) (h2 : wcQ ≤ 8) (hsv1 : 9/10 ≤ sv) (hsv2 : sv ≤ 11/10) :
    0 < wcQ * ((W - 13 * SQ) / 12) / W * sv ∧
    wcQ * ((W - 13 * SQ) / 12) / W * sv ≤ 1 ∧
    wcQ * ((W - 13 * SQ) / 12) / W * sv * W ≤ 11/15 * (W - 13 * SQ) := by
  have hpos : 0 < W - 13 * SQ := by linarith
  have hWpos : (0 : ℚ) < W := by linarith
  have heq : wcQ * ((W - 13 * SQ) / 12) / W * sv = wcQ * (W - 13 * SQ) * sv / (12 * W) := by
    field_simp
  refine ⟨?_, ?_, ?_⟩
  · rw [heq]
    have hnum : 0 < wcQ * (W - 13 * SQ) * sv :=
      mul_pos (mul_pos (by linarith) hpos) (by linarith)
    exact div_pos hnum (by linarith)
  · rw [heq, div_le_one (by linarith : (0:ℚ) < 12 * W)]
    nlinarith [mul_pos hpos (by linarith : (0:ℚ) < sv), mul_nonneg hpos.le (by linarith : (0:ℚ) ≤ sv)]
  · have heq2 : wcQ * ((W - 13 * SQ) / 12) / W * sv * W = wcQ * (W - 13 * SQ) * sv / 12 := by
      field_simp
      ring
    rw [heq2]
    rw [div_le_iff (by norm_num : (0:ℚ) < 12)]
    nlinarith [mul_nonneg hpos.le (by linarith : (0:ℚ) ≤ sv)]

/-- Positivity of the height scale (8 rows, factor 9 on the spacing). -/
lemma scale_core_h {H SQ hcQ sv : ℚ} (hH : 1 ≤ H) (hS0 : 0 ≤ SQ) (hS : SQ ≤ H / 50)
    (h1 : 1 ≤ hcQ) (hsv1 : 9/10 ≤ sv) :
    0 < hcQ * ((H - 9 * SQ) / 8) / H * sv := by
  have hpos : 0 < H - 9 * SQ := by linarith
  have hHpos : (0 : ℚ) < H := by linarith
  have : 0 < hcQ * ((H - 9 * SQ) / 8) := mul_pos (by linarith) (by linarith)
  exact mul_pos (div_pos this hHpos) (by linarith)

/-- The position clamp `max(spacing, min(x0, W - size - spacing))` keeps
`x + size ≤ W` whenever `spacing + size ≤ W`. -/
lemma clamp_plus_le {w s x0 t : ℤ} (hs : 0 ≤ s) (hb : s + t ≤ w) :
    max s (min x0 (w - t - s)) + t ≤ w := by
  omega

lemma mkContainer_widthScale (ct : ContainerTransform) (d : IterDraws)
    (row col wc hc : ℕ) (isV : Bool) :
    (mkContainer ct d row col wc hc isV).widthScale =
      qmul (qdiv (qmul (wc : ℚ) ct.cellWidth) (ct.displayWidth : ℚ)) d.sv := rfl

lemma mkContainer_heightScale (ct : ContainerTransform) (d : IterDraws)
    (row col wc hc : ℕ) (isV : Bool) :
    (mkContainer ct d row col wc hc isV).heightScale =
      qmul (qdiv (qmul (hc : ℚ) ct.cellHeight) (ct.displayHeight : ℚ)) d.sv := rfl

lemma mkContainer_posX (ct : ContainerTransform) (d : IterDraws)
    (row col wc hc : ℕ) (isV : Bool) :
    (mkContainer ct d row col wc hc isV).position.1 =
      max ct.spacing (min
        (pyInt (qadd (qadd (qmul (col : ℚ) (qadd ct.cellWidth (ct.spacing : ℚ)))
          (ct.spacing : ℚ)) d.jx))
        ((ct.displayWidth : ℤ) -
          pyInt (qmul (mkContainer ct d row col wc hc isV).widthScale
            (ct.displayWidth : ℚ)) - ct.spacing)) := rfl

lemma mkContainer_rotation (ct : ContainerTransform) (d : IterDraws)
    (row col wc hc : ℕ) (isV : Bool) :
    (mkContainer ct d row col wc hc isV).rotation =
      (if isV then (if d.rotPick then 90 else 0) else (if d.rotPick then 270 else 0)) ∧
    (mkContainer ct d row col wc hc isV).isVertical = isV := ⟨rfl, rfl⟩

lemma validDraws_sv {s : ℤ} {d : IterDraws} (h : ValidDraws s d) :
    (9/10 : ℚ) ≤ d.sv ∧ d.sv ≤ 11/10 := by
  obtain ⟨_, _, _, _, _, _, _, ⟨h1, h2⟩, _⟩ := h
  rw [mkRat_eq] at h1 h2
  norm_num at h1 h2
  exact ⟨h1, h2⟩

lemma pyInt_mul_le {ws Wq bound : ℚ} (hws : 0 ≤ ws * Wq) (hle : ws * Wq ≤ bound) :
    ((pyInt (qmul ws Wq) : ℤ) : ℚ) ≤ bound := by
  have h0 : (0 : ℚ) ≤ qmul ws Wq := by rw [qmul_eq]; exact hws
  refine le_trans (pyInt_le h0) ?_
  rw [qmul_eq]
  exact hle

/-- All per-container facts needed by the invariant claims, for one placed
container built from a valid draw. -/
lemma mkContainer_props (w h mo Mo : ℕ) (hw : 1 ≤ w) (hh : 1 ≤ h) {d : IterDraws}
    (hd : ValidDraws (mkContainerTransform w h mo Mo).spacing d) (row col : ℕ) :
    0 < (mkContainer (mkContainerTransform w h mo Mo) d row col
        (chooseCells d).wCells (chooseCells d).hCells (chooseCells d).isVert).widthScale ∧
    (mkContainer (mkContainerTransform w h mo Mo) d row col
        (chooseCells d).wCells (chooseCells d).hCells (chooseCells d).isVert).widthScale ≤ 1 ∧
    0 < (mkContainer (mkContainerTransform w h mo Mo) d row col
        (chooseCells d).wCells (chooseCells d).hCells (chooseCells d).isVert).heightScale ∧
    (mkContainer (mkContainerTransform w h mo Mo) d row col
        (chooseCells d).wCells (chooseCells d).hCells (chooseCells d).isVert).position.1 +
      pyInt (qmul (mkContainer (mkContainerTransform w h mo Mo) d row col
        (chooseCells d).wCells (chooseCells d).hCells (chooseCells d).isVert).widthScale
        ((w : ℕ) : ℚ)) ≤ (w : ℤ) := by
  obtain ⟨⟨hwc1, hwc2⟩, hhc1, _⟩ := chooseCells_bounds hd
  obtain ⟨hsv1, hsv2⟩ := validDraws_sv hd
  have hS0 : (0 : ℚ) ≤ ((mkContainerTransform w h mo Mo).spacing : ℚ) := by
    exact_mod_cast spacing_nonneg w h mo Mo
  have hSw : ((mkContainerTransform w h mo Mo).spacing : ℚ) ≤ (w : ℚ) / 50 :=
    (spacing_le w h mo Mo).1
  have hSh : ((mkContainerTransform w h mo Mo).spacing : ℚ) ≤ (h : ℚ) / 50 :=
    (spacing_le w h mo Mo).2
  have hWq : (1 : ℚ) ≤ (w : ℚ) := by exact_mod_cast hw
  have hHq : (1 : ℚ) ≤ (h : ℚ) := by exact_mod_cast hh
  have hwsEq : (mkContainer (mkContainerTransform w h mo Mo) d row col
      (chooseCells d).wCells (chooseCells d).hCells (chooseCells d).isVert).widthScale =
      ((chooseCells d).wCells : ℚ) *
        (((w : ℚ) - 13 * ((mkContainerTransform w h mo Mo).spacing : ℚ)) / 12) / (w : ℚ) *
        d.sv := by
    rw [mkContainer_widthScale, qmul_eq, qdiv_eq, qmul_eq, mkCT_cellWidth, mkCT_displayWidth]
  have hhsEq : (mkContainer (mkContainerTransform w h mo Mo) d row col
      (chooseCells d).wCells (chooseCells d).hCells (chooseCells d).isVert).heightScale =
      ((chooseCells d).hCells : ℚ) *
        (((h : ℚ) - 9 * ((mkContainerTransform w h mo Mo).spacing : ℚ)) / 8) / (h : ℚ) *
        d.sv := by
    rw [mkContainer_heightScale, qmul_eq, qdiv_eq, qmul_eq, mkCT_cellHeight, mkCT_displayHeight]
  have hwcQ1 : (1 : ℚ) ≤ ((chooseCells d).wCells : ℚ) := by exact_mod_cast hwc1
  have hwcQ2 : ((chooseCells d).wCells : ℚ) ≤ 8 := by exact_mod_cast hwc2
  have hhcQ1 : (1 : ℚ) ≤ ((chooseCells d).hCells : ℚ) := by exact_mod_cast hhc1
  obtain ⟨hpos, hle1, hszbound⟩ :=
    scale_core hWq hS0 hSw hwcQ1 hwcQ2 hsv1 hsv2
  have hhpos := scale_core_h hHq hS0 hSh hhcQ1 hsv1
  refine ⟨by rw [hwsEq]; exact hpos, by rw [hwsEq]; exact hle1,
    by rw [hhsEq]; exact hhpos, ?_⟩
  have hws0 : (0 : ℚ) ≤ (mkContainer (mkContainerTransform w h mo Mo) d row col
      (chooseCells d).wCells (chooseCells d).hCells (chooseCells d).isVert).widthScale *
      (w : ℚ) := by
    rw [hwsEq]
    exact mul_nonneg hpos.le (by linarith)
  have ht0 : 0 ≤ pyInt (qmul (mkContainer (mkContainerTransform w h mo Mo) d row col
      (chooseCells d).wCells (chooseCells d).hCells (chooseCells d).isVert).widthScale
      ((w : ℕ) : ℚ)) := by
    apply pyInt_nonneg
    rw [qmul_eq]
    exact_mod_cast hws0
  have htle : ((pyInt (qmul (mkContainer (mkContainerTransform w h mo Mo) d row col
      (chooseCells d).wCells (chooseCells d).hCells (chooseCells d).isVert).widthScale
      ((w : ℕ) : ℚ)) : ℤ) : ℚ) ≤
      11/15 * ((w : ℚ) - 13 * ((mkContainerTransform w h mo Mo).spacing : ℚ)) := by
    refine pyInt_mul_le hws0 ?_
    rw [hwsEq]
    exact hszbound
  have hb : (mkContainerTransform w h mo Mo).spacing +
      pyInt (qmul (mkContainer (mkContainerTransform w h mo Mo) d row col
        (chooseCells d).wCells (chooseCells d).hCells (chooseCells d).isVert).widthScale
        ((w : ℕ) : ℚ)) ≤ (w : ℤ) := by
    have : ((mkContainerTransform w h mo Mo).spacing : ℚ) +
        ((pyInt (qmul (mkContainer (mkContainerTransform w h mo Mo) d row col
          (chooseCells d).wCells (chooseCells d).hCells (chooseCells d).isVert).widthScale
          ((w : ℕ) : ℚ)) : ℤ) : ℚ) ≤ (w : ℚ) := by linarith
    exact_mod_cast this
  rw [mkContainer_posX, mkCT_displayWidth]
  exact clamp_plus_le (spacing_nonneg w h mo Mo) hb

lemma mkContainer_rot_cases (ct : ContainerTransform) (d : IterDraws)
    (row col wc hc : ℕ) (isV : Bool) :
    ((mkContainer ct d row col wc hc isV).isVertical = true →
      (mkContainer ct d row col wc hc isV).rotation = 0 ∨
      (mkContainer ct d row col wc hc isV).rotation = 90) ∧
    ((mkContainer ct d row col wc hc isV).isVertical = false →
      (mkContainer ct d row col wc hc isV).rotation = 0 ∨
      (mkContainer ct d row col wc hc isV).rotation = 270) := by
  obtain ⟨hrot, hvert⟩ := mkContainer_rotation ct d row col wc hc isV
  cases isV <;> cases hr : d.rotPick <;> simp [hrot, hvert, hr]

lemma pyInt_intCast (n : ℤ) : pyInt ((n : ℤ) : ℚ) = n := by
  unfold pyInt
  split
  · rw [ratFloor_eq, Int.floor_intCast]
  · rw [ratFloor_eq, ← Int.cast_neg, Int.floor_intCast]
    omega

/-- Fill guarantee for the aspect-compare resize of `apply_transform`: the
resized region is at least the target in both dimensions, and the limiting
dimension matches exactly. -/
lemma fillResizeDims_spec (fw fh : ℕ) (tw th : ℤ) (hfw : 0 < fw) (hfh : 0 < fh)
    (htw : 0 < tw) (hth : 0 < th) :
    tw ≤ (fillResizeDims fw fh tw th).1 ∧ th ≤ (fillResizeDims fw fh tw th).2 ∧
    ((fillResizeDims fw fh tw th).1 = tw ∨ (fillResizeDims fw fh tw th).2 = th) := by
  have hfwq : (0 : ℚ) < (fw : ℚ) := by exact_mod_cast hfw
  have hfhq : (0 : ℚ) < (fh : ℚ) := by exact_mod_cast hfh
  have htwq : (0 : ℚ) < ((tw : ℤ) : ℚ) := by exact_mod_cast htw
  have hthq : (0 : ℚ) < ((th : ℤ) : ℚ) := by exact_mod_cast hth
  unfold fillResizeDims
  split
  · rename_i hgt
    rw [qdiv_eq, qdiv_eq, div_lt_div_iff hthq hfhq] at hgt
    have hmain : ((tw : ℤ) : ℚ) ≤ (fw : ℚ) * ((th : ℚ) / (fh : ℚ)) := by
      rw [mul_div_assoc']
      rw [le_div_iff hfhq]
      nlinarith
    refine ⟨?_, by simp, Or.inr rfl⟩
    apply le_pyInt
    · rw [qmul_eq, qdiv_eq]
      exact hmain
    · rw [qmul_eq, qdiv_eq]
      positivity
  · rename_i hle
    rw [qdiv_eq, qdiv_eq, not_lt, div_le_div_iff hfhq hthq] at hle
    have hmain : ((th : ℤ) : ℚ) ≤ (fh : ℚ) * ((tw : ℚ) / (fw : ℚ)) := by
      rw [mul_div_assoc']
      rw [le_div_iff hfwq]
      nlinarith
    refine ⟨by simp, ?_, Or.inl rfl⟩
    apply le_pyInt
    · rw [qmul_eq, qdiv_eq]
      exact hmain
    · rw [qmul_eq, qdiv_eq]
      positivity

/-- Fill guarantee for the max-scale resize of `apply_container_transform`. -/
lemma fillScaleDims_spec (fw fh : ℕ) (tw th : ℤ) (hfw : 0 < fw) (hfh : 0 < fh)
    (htw : 0 < tw) (hth : 0 < th) :
    tw ≤ (fillScaleDims fw fh tw th).1 ∧ th ≤ (fillScaleDims fw fh tw th).2 ∧
    ((fillScaleDims fw fh tw th).1 = tw ∨ (fillScaleDims fw fh tw th).2 = th) := by
  have hfwq : (0 : ℚ) < (fw : ℚ) := by exact_mod_cast hfw
  have hfhq : (0 : ℚ) < (fh : ℚ) := by exact_mod_cast hfh
  have htwq : (0 : ℚ) < ((tw : ℤ) : ℚ) := by exact_mod_cast htw
  have hthq : (0 : ℚ) < ((th : ℤ) : ℚ) := by exact_mod_cast hth
  have hsx : (0 : ℚ) ≤ qdiv ((tw : ℤ) : ℚ) (fw : ℚ) := by
    rw [qdiv_eq]; positivity
  have hsy : (0 : ℚ) ≤ qdiv ((th : ℤ) : ℚ) (fh : ℚ) := by
    rw [qdiv_eq]; positivity
  have hwEq : (fw : ℚ) * (qdiv ((tw : ℤ) : ℚ) (fw : ℚ)) = ((tw : ℤ) : ℚ) := by
    rw [qdiv_eq, mul_div_assoc', mul_comm, mul_div_assoc, div_self (ne_of_gt hfwq), mul_one]
  have hhEq : (fh : ℚ) * (qdiv ((th : ℤ) : ℚ) (fh : ℚ)) = ((th : ℤ) : ℚ) := by
    rw [qdiv_eq, mul_div_assoc', mul_comm, mul_div_assoc, div_self (ne_of_gt hfhq), mul_one]
  unfold fillScaleDims
  refine ⟨?_, ?_, ?_⟩
  · apply le_pyInt
    · rw [qmul_eq]
      calc ((tw : ℤ) : ℚ) = (fw : ℚ) * (qdiv ((tw : ℤ) : ℚ) (fw : ℚ)) := hwEq.symm
        _ ≤ (fw : ℚ) * max (qdiv ((tw : ℤ) : ℚ) (fw : ℚ)) (qdiv ((th : ℤ) : ℚ) (fh : ℚ)) :=
          mul_le_mul_of_nonneg_left (le_max_left _ _) (by positivity)
    · rw [qmul_eq]
      have : (0 : ℚ) ≤ max (qdiv ((tw : ℤ) : ℚ) (fw : ℚ)) (qdiv ((th : ℤ) : ℚ) (fh : ℚ)) :=
        le_trans hsx (le_max_left _ _)
      positivity
  · apply le_pyInt
    · rw [qmul_eq]
      calc ((th : ℤ) : ℚ) = (fh : ℚ) * (qdiv ((th : ℤ) : ℚ) (fh : ℚ)) := hhEq.symm
        _ ≤ (fh : ℚ) * max (qdiv ((tw : ℤ) : ℚ) (fw : ℚ)) (qdiv ((th : ℤ) : ℚ) (fh : ℚ)) :=
          mul_le_mul_of_nonneg_left (le_max_right _ _) (by positivity)
    · rw [qmul_eq]
      have : (0 : ℚ) ≤ max (qdiv ((tw : ℤ) : ℚ) (fw : ℚ)) (qdiv ((th : ℤ) : ℚ) (fh : ℚ)) :=
        le_trans hsx (le_max_left _ _)
      positivity
  · rcases max_cases (qdiv ((tw : ℤ) : ℚ) (fw : ℚ)) (qdiv ((th : ℤ) : ℚ) (fh : ℚ)) with
      ⟨hmax, _⟩ | ⟨hmax, _⟩
    · left
      show pyInt (qmul ((fw : ℕ) : ℚ)
        (max (qdiv ((tw : ℤ) : ℚ) ((fw : ℕ) : ℚ)) (qdiv ((th : ℤ) : ℚ) ((fh : ℕ) : ℚ)))) = tw
      rw [hmax, qmul_eq, hwEq, pyInt_intCast]
    · right
      show pyInt (qmul ((fh : ℕ) : ℚ)
        (max (qdiv ((tw : ℤ) : ℚ) ((fw : ℕ) : ℚ)) (qdiv ((th : ℤ) : ℚ) ((fh : ℕ) : ℚ)))) = th
      rw [hmax, qmul_eq, hhEq, pyInt_intCast]

/-- Every image the `try:` block of `apply_transform` returns already has
exactly the code's target dimensions (the final shape check resizes any
mismatch away). -/
lemma tryTransform_ok_dims {g : Image → ℕ → ℕ → ℕ → ℕ → ℕ × ℕ × ℕ}
    {frame? : Option Image} {tw th : ℤ} (htw : 0 ≤ tw) (hth : 0 ≤ th) {img : Image}
    (h : tryTransform g frame? tw th = .ok img) :
    img.width = tw.toNat ∧ img.height = th.toNat := by
  cases frame? with
  | none => simp [tryTransform] at h
  | some frame =>
    unfold tryTransform at h
    dsimp only at h
    split at h
    · simp at h
    · split at h
      · simp at h
      · split at h
        · simp at h
        · split at h
          · rename_i hshape
            rw [Except.ok.injEq] at h
            subst h
            obtain ⟨hh, hw⟩ := hshape
            constructor <;> omega
          · split at h
            · simp at h
            · rw [Except.ok.injEq] at h
              subst h
              exact ⟨rfl, rfl⟩

/-- `apply_transform` never lets an exception escape for nonnegative scale
factors, and its result always has exactly `int(W*width_scale) ×
int(H*height_scale)` pixels. -/
lemma applyTransformE_dims (g : Image → ℕ → ℕ → ℕ → ℕ → ℕ × ℕ × ℕ)
    (ct : ContainerTransform) (c : Container) (frame? : Option Image)
    (hws : 0 ≤ c.widthScale) (hhs : 0 ≤ c.heightScale) :
    okDims (applyTransformE g ct c frame?) =
      some ((pyInt (qmul (ct.displayWidth : ℚ) c.widthScale)).toNat,
            (pyInt (qmul (ct.displayHeight : ℚ) c.heightScale)).toNat) := by
  have htw : 0 ≤ pyInt (qmul (ct.displayWidth : ℚ) c.widthScale) :=
    pyInt_nonneg (by rw [qmul_eq]; exact mul_nonneg (by positivity) hws)
  have hth : 0 ≤ pyInt (qmul (ct.displayHeight : ℚ) c.heightScale) :=
    pyInt_nonneg (by rw [qmul_eq]; exact mul_nonneg (by positivity) hhs)
  unfold applyTransformE
  dsimp only
  split
  · rename_i img heq
    obtain ⟨hw, hh⟩ := tryTransform_ok_dims htw hth heq
    simp [okDims, hw, hh]
  · rw [if_neg (by omega)]
    simp [okDims, allBlackImage]

lemma applyTransformE_ok (g : Image → ℕ → ℕ → ℕ → ℕ → ℕ × ℕ × ℕ)
    (ct : ContainerTransform) (c : Container) (frame? : Option Image)
    (hws : 0 ≤ c.widthScale) (hhs : 0 ≤ c.heightScale) :
    isErrE (applyTransformE g ct c frame?) = false := by
  have h := applyTransformE_dims g ct c frame? hws hhs
  cases hres : applyTransformE g ct c frame? with
  | ok img => rfl
  | error e => rw [hres] at h; simp [okDims] at h

/-- On the degenerate inputs (`None` frame, zero-size frame, or a zero target
dimension) `apply_transform` falls back to—or degenerates into—a solid black
image of exactly the code's target size. -/
lemma applyTransformE_degenerate (g : Image → ℕ → ℕ → ℕ → ℕ → ℕ × ℕ × ℕ)
    (ct : ContainerTransform) (c : Container) (frame? : Option Image)
    (hws : 0 ≤ c.widthScale) (hhs : 0 ≤ c.heightScale)
    (hdeg : frame? = none ∨
      (∃ f, frame? = some f ∧ (f.width = 0 ∨ f.height = 0)) ∨
      pyInt (qmul (ct.displayWidth : ℚ) c.widthScale) = 0 ∨
      pyInt (qmul (ct.displayHeight : ℚ) c.heightScale) = 0) :
    okDims (applyTransformE g ct c frame?) =
      some ((pyInt (qmul (ct.displayWidth : ℚ) c.widthScale)).toNat,
            (pyInt (qmul (ct.displayHeight : ℚ) c.heightScale)).toNat) ∧
    IsBlackOk (applyTransformE g ct c frame?) := by
  have hdims := applyTransformE_dims g ct c frame? hws hhs
  refine ⟨hdims, ?_⟩
  cases hres : applyTransformE g ct c frame? with
  | error e => rw [hres] at hdims; simp [okDims] at hdims
  | ok img =>
    rw [hres] at hdims
    simp only [okDims, Option.some_inj, Prod.mk.injEq] at hdims
    obtain ⟨hw, hh⟩ := hdims
    show IsBlack img
    rcases hdeg with hdeg | hdeg | hdeg | hdeg
    · -- frame is None: the try block raised, so the result is the fallback
      subst hdeg
      unfold applyTransformE at hres
      dsimp only at hres
      rw [show tryTransform g none (pyInt (qmul (ct.displayWidth : ℚ) c.widthScale))
          (pyInt (qmul (ct.displayHeight : ℚ) c.heightScale)) = .error () from rfl] at hres
      rw [if_neg (by
        have htw := pyInt_nonneg (show (0:ℚ) ≤ qmul (ct.displayWidth : ℚ) c.widthScale by
          rw [qmul_eq]; exact mul_nonneg (by positivity) hws)
        have hth := pyInt_nonneg (show (0:ℚ) ≤ qmul (ct.displayHeight : ℚ) c.heightScale by
          rw [qmul_eq]; exact mul_nonneg (by positivity) hhs)
        omega)] at hres
      rw [Except.ok.injEq] at hres
      subst hres
      intro x hx y hy
      rfl
    · -- zero-size frame: the validity check raised
      obtain ⟨f, rfl, hf⟩ := hdeg
      unfold applyTransformE at hres
      dsimp only at hres
      rw [show tryTransform g (some f) (pyInt (qmul (ct.displayWidth : ℚ) c.widthScale))
          (pyInt (qmul (ct.displayHeight : ℚ) c.heightScale)) = .error () from by
        unfold tryTransform; dsimp only; rw [if_pos hf]] at hres
      rw [if_neg (by
        have htw := pyInt_nonneg (show (0:ℚ) ≤ qmul (ct.displayWidth : ℚ) c.widthScale by
          rw [qmul_eq]; exact mul_nonneg (by positivity) hws)
        have hth := pyInt_nonneg (show (0:ℚ) ≤ qmul (ct.displayHeight : ℚ) c.heightScale by
          rw [qmul_eq]; exact mul_nonneg (by positivity) hhs)
        omega)] at hres
      rw [Except.ok.injEq] at hres
      subst hres
      intro x hx y hy
      rfl
    · -- zero target width: the returned image has width 0, vacuously black
      intro x hx
      rw [hw, hdeg] at hx
      simp at hx
    · -- zero target height: vacuously black
      intro x hx y hy
      rw [hh, hdeg] at hy
      simp at hy

lemma containersOf_mem {ps : List Placement} {c : Container} (h : c ∈ containersOf ps) :
    ∃ p ∈ ps, p.container = c := by
  simpa [containersOf] using List.mem_map.mp h

/-- Claim C1, counterexample: on a 100 × 100 canvas with `width_fraction =
0.035` and `height_fraction = 0.5` and a valid 10 × 10 frame, the compositor
returns a 3 × 50 image, while the claimed target (`round`, clamped to ≥ 1)
is 4 × 50: the code truncates (`int`) toward zero and never clamps. -/
theorem claim1_counterexample :
    okDims (applyTransformE gZero ctA cA frameA) = some (3, 50) ∧
    specTargetWidth ctA cA = 4 ∧ specTargetHeight ctA cA = 50 := by
  decide

/-- Claim C1 (amended): for every source frame (including `None` and zero-size
ones) and every container spec with nonnegative fractions, `apply_transform`
returns an image of exactly `int(canvas.width * width_fraction) ×
int(canvas.height * height_fraction)` pixels — truncation toward zero, with
no clamping to 1 (a dimension may be 0). -/
theorem claim1_amended (g : Image → ℕ → ℕ → ℕ → ℕ → ℕ × ℕ × ℕ)
    (ct : ContainerTransform) (c : Container) (frame? : Option Image)
    (hws : 0 ≤ c.widthScale) (hhs : 0 ≤ c.heightScale) :
    okDims (applyTransformE g ct c frame?) =
      some ((pyInt (qmul (ct.displayWidth : ℚ) c.widthScale)).toNat,
            (pyInt (qmul (ct.displayHeight : ℚ) c.heightScale)).toNat) :=
  applyTransformE_dims g ct c frame? hws hhs

theorem claim1_witness :
    0 ≤ cA.widthScale ∧ 0 ≤ cA.heightScale ∧
    okDims (applyTransformE gZero ctA cA frameA) =
      some ((pyInt (qmul (ctA.displayWidth : ℚ) cA.widthScale)).toNat,
            (pyInt (qmul (ctA.displayHeight : ℚ) cA.heightScale)).toNat) :=
  ⟨by decide, by decide, claim1_amended gZero ctA cA frameA (by decide) (by decide)⟩

/-- Claim C2, counterexample: `VideoPlayer.apply_container_transform` raises
(`ZeroDivisionError`) on a valid 1 × 1 frame whose cutout crop collapses to
zero size, instead of returning a black target-size image — so "no exception
ever propagates out of the compositor" fails for this compositor. -/
theorem claim2_counterexample :
    isErrE (applyContainerTransformE gZero 100 100 c2x frame1) = true := by
  decide

/-- Claim C2 (amended): for `ContainerTransform.apply_transform` (the
compositor with the `try/except` fallback), every degenerate input — `None`
frame, zero-size frame, or a zero code-target dimension — yields a solid
black image of exactly the code's truncated target size, with no exception;
the `VideoPlayer.apply_container_transform` variant instead lets a
`ZeroDivisionError` escape on a zero-size crop. -/
theorem claim2_amended (g : Image → ℕ → ℕ → ℕ → ℕ → ℕ × ℕ × ℕ)
    (ct : ContainerTransform) (c : Container) (frame? : Option Image)
    (hws : 0 ≤ c.widthScale) (hhs : 0 ≤ c.heightScale)
    (hdeg : frame? = none ∨
      (∃ f, frame? = some f ∧ (f.width = 0 ∨ f.height = 0)) ∨
      pyInt (qmul (ct.displayWidth : ℚ) c.widthScale) = 0 ∨
      pyInt (qmul (ct.displayHeight : ℚ) c.heightScale) = 0) :
    okDims (applyTransformE g ct c frame?) =
      some ((pyInt (qmul (ct.displayWidth : ℚ) c.widthScale)).toNat,
            (pyInt (qmul (ct.displayHeight : ℚ) c.heightScale)).toNat) ∧
    IsBlackOk (applyTransformE g ct c frame?) :=
  applyTransformE_degenerate g ct c frame? hws hhs hdeg

theorem claim2_witness :
    0 ≤ cA.widthScale ∧ 0 ≤ cA.heightScale ∧
    ((none : Option Image) = none ∨
      (∃ f, (none : Option Image) = some f ∧ (f.width = 0 ∨ f.height = 0)) ∨
      pyInt (qmul (ctA.displayWidth : ℚ) cA.widthScale) = 0 ∨
      pyInt (qmul (ctA.displayHeight : ℚ) cA.heightScale) = 0) ∧
    (okDims (applyTransformE gZero ctA cA none) =
      some ((pyInt (qmul (ctA.displayWidth : ℚ) cA.widthScale)).toNat,
            (pyInt (qmul (ctA.displayHeight : ℚ) cA.heightScale)).toNat) ∧
     IsBlackOk (applyTransformE gZero ctA cA none)) :=
  ⟨by decide, by decide, Or.inl rfl,
    claim2_amended gZero ctA cA none (by decide) (by decide) (Or.inl rfl)⟩

/-- Claim C3, counterexample: on a 100 × 2000 canvas, a reachable single-draw
run places its container at `y = 2` with `height_fraction = 1.0901`, and
`position.y + round(height_fraction * canvas.height) = 2182 > 2000`: the
bounds clamp fails when the scaled size exceeds the clamp window. -/
theorem claim3_counterexample :
    ValidOracle cxCT cxOracle ∧
    (cxCT.displayHeight : ℤ) <
      (cxPlan.getD 0 defaultContainer).position.2 +
        specRound (qmul (cxPlan.getD 0 defaultContainer).heightScale
          (cxCT.displayHeight : ℚ)) := by
  decide

/-- Claim C3 (amended): with the code's truncation (`int`, not `round`), the x
invariant does hold for every planner-produced spec:
`position.x + int(width_fraction * canvas.width) <= canvas.width`.  The
analogous y invariant is false (see the counterexample). -/
theorem claim3_amended (w h mo Mo : ℕ) (hw : 1 ≤ w) (hh : 1 ≤ h) (o : GenOracle)
    (ho : ValidOracle (mkContainerTransform w h mo Mo) o) :
    ∀ c ∈ containersOf (generateContainerSettings (mkContainerTransform w h mo Mo) o),
      c.position.1 + pyInt (qmul c.widthScale ((w : ℕ) : ℚ)) ≤ (w : ℤ) := by
  intro c hc
  obtain ⟨p, hp, rfl⟩ := containersOf_mem hc
  exact generateContainerSettings_prop (mkContainerTransform w h mo Mo) o
    (spacing_nonneg w h mo Mo)
    (fun p => p.container.position.1 +
      pyInt (qmul p.container.widthScale ((w : ℕ) : ℚ)) ≤ (w : ℤ))
    (fun d st row col hd _ => (mkContainer_props w h mo Mo hw hh hd row col).2.2.2)
    ho.2.2 p hp

theorem claim3_witness :
    ValidOracle wCT wOracle ∧
    ((containersOf (generateContainerSettings wCT wOracle)).getD 0
        defaultContainer).position.1 +
      pyInt (qmul ((containersOf (generateContainerSettings wCT wOracle)).getD 0
        defaultContainer).widthScale ((100 : ℕ) : ℚ)) ≤ (100 : ℤ) :=
  ⟨by decide, claim3_amended 100 100 1 1 (by decide) (by decide) wOracle (by decide) _
    (by decide)⟩

/-- Claim C4 (confirmed): within one planner call, the coarse grid rectangles
of any two placed containers are disjoint — a cell is never granted twice
(pixel-level overlap from jitter is outside this statement). -/
theorem claim4 (ct : ContainerTransform) (o : GenOracle) :
    (generateContainerSettings ct o).Pairwise CellDisjoint := by
  have h := genLoop_gridInv ct o.count (o.count * 3) o.draws initGenState
    ⟨List.Pairwise.nil, by intro p hp; simp [initGenState] at hp⟩
  exact h.1

/-- Claim C5 (confirmed): the planner returns at most the drawn count of
containers (hence at most `max_objects`), reporting exhaustion only via a
shorter list; the embedding is a total function, so no exception and no
partial spec is ever produced. -/
theorem claim5 (ct : ContainerTransform) (o : GenOracle)
    (hmin : 1 ≤ ct.minObjects) (hminmax : ct.minObjects ≤ ct.maxObjects)
    (ho : ValidOracle ct o) :
    (containersOf (generateContainerSettings ct o)).length ≤ o.count ∧
    o.count ≤ ct.maxObjects := by
  have hp := genLoop_placed ct o.count (o.count * 3) o.draws initGenState
    (by simp [initGenState]) (by simp [initGenState])
  constructor
  · unfold containersOf generateContainerSettings genRun
    rw [List.length_map]
    unfold genRun at hp
    omega
  · exact ho.2.1

theorem claim5_witness :
    1 ≤ wCT.minObjects ∧ wCT.minObjects ≤ wCT.maxObjects ∧ ValidOracle wCT wOracle ∧
    ((containersOf (generateContainerSettings wCT wOracle)).length ≤ wOracle.count ∧
      wOracle.count ≤ wCT.maxObjects) :=
  ⟨by decide, by decide, by decide, claim5 wCT wOracle (by decide) (by decide) (by decide)⟩

/-- Claim C6 (confirmed): the planner's placement loop executes at most
`count * 3` iterations — the attempt budget fixed at the top of
`generate_container_settings` — so the search always terminates. -/
theorem claim6 (ct : ContainerTransform) (o : GenOracle) :
    (genRun ct o).iters ≤ o.count * 3 := by
  have h := genLoop_iters_le ct o.count (o.count * 3) o.draws initGenState
  simpa [initGenState] using h

/-- Claim C7 (confirmed): in both compositors' aspect-fill resize steps, for
positive source and target dimensions the resized size is at least the
target in both dimensions, with the limiting dimension matching exactly. -/
theorem claim7 (fw fh : ℕ) (tw th : ℤ) (hfw : 0 < fw) (hfh : 0 < fh)
    (htw : 0 < tw) (hth : 0 < th) :
    (tw ≤ (fillResizeDims fw fh tw th).1 ∧ th ≤ (fillResizeDims fw fh tw th).2 ∧
      ((fillResizeDims fw fh tw th).1 = tw ∨ (fillResizeDims fw fh tw th).2 = th)) ∧
    (tw ≤ (fillScaleDims fw fh tw th).1 ∧ th ≤ (fillScaleDims fw fh tw th).2 ∧
      ((fillScaleDims fw fh tw th).1 = tw ∨ (fillScaleDims fw fh tw th).2 = th)) :=
  ⟨fillResizeDims_spec fw fh tw th hfw hfh htw hth,
   fillScaleDims_spec fw fh tw th hfw hfh htw hth⟩

theorem claim7_witness :
    0 < (3 : ℕ) ∧ 0 < (2 : ℕ) ∧ 0 < (4 : ℤ) ∧ 0 < (5 : ℤ) ∧
    ((4 ≤ (fillResizeDims 3 2 4 5).1 ∧ 5 ≤ (fillResizeDims 3 2 4 5).2 ∧
      ((fillResizeDims 3 2 4 5).1 = 4 ∨ (fillResizeDims 3 2 4 5).2 = 5)) ∧
     (4 ≤ (fillScaleDims 3 2 4 5).1 ∧ 5 ≤ (fillScaleDims 3 2 4 5).2 ∧
      ((fillScaleDims 3 2 4 5).1 = 4 ∨ (fillScaleDims 3 2 4 5).2 = 5))) :=
  ⟨by decide, by decide, by decide, by decide,
    claim7 3 2 4 5 (by decide) (by decide) (by decide) (by decide)⟩

/-- Claim C8, counterexample: a reachable single-draw run on a 100 × 2000
canvas returns a container with `height_fraction = 10901/10000 > 1` — the
fractions are not confined to `(0, 1]`. -/
theorem claim8_counterexample :
    ValidOracle cxCT cxOracle ∧
    (1 : ℚ) < (cxPlan.getD 0 defaultContainer).heightScale := by
  decide

/-- Claim C8 (amended): every planner-produced spec has strictly positive
width and height fractions, and the width fraction never exceeds 1; the
height fraction can exceed 1 (see the counterexample), because up to all 8
grid rows may be used and the 1.1 scale jitter can push past the canvas. -/
theorem claim8_amended (w h mo Mo : ℕ) (hw : 1 ≤ w) (hh : 1 ≤ h) (o : GenOracle)
    (ho : ValidOracle (mkContainerTransform w h mo Mo) o) :
    ∀ c ∈ containersOf (generateContainerSettings (mkContainerTransform w h mo Mo) o),
      0 < c.widthScale ∧ c.widthScale ≤ 1 ∧ 0 < c.heightScale := by
  intro c hc
  obtain ⟨p, hp, rfl⟩ := containersOf_mem hc
  exact generateContainerSettings_prop (mkContainerTransform w h mo Mo) o
    (spacing_nonneg w h mo Mo)
    (fun p => 0 < p.container.widthScale ∧ p.container.widthScale ≤ 1 ∧
      0 < p.container.heightScale)
    (fun d st row col hd _ =>
      ⟨(mkContainer_props w h mo Mo hw hh hd row col).1,
       (mkContainer_props w h mo Mo hw hh hd row col).2.1,
       (mkContainer_props w h mo Mo hw hh hd row col).2.2.1⟩)
    ho.2.2 p hp

theorem claim8_witness :
    ValidOracle wCT wOracle ∧
    (0 < ((containersOf (generateContainerSettings wCT wOracle)).getD 0
        defaultContainer).widthScale ∧
     ((containersOf (generateContainerSettings wCT wOracle)).getD 0
        defaultContainer).widthScale ≤ 1 ∧
     0 < ((containersOf (generateContainerSettings wCT wOracle)).getD 0
        defaultContainer).heightScale) :=
  ⟨by decide, claim8_amended 100 100 1 1 (by decide) (by decide) wOracle (by decide) _
    (by decide)⟩

/-- Claim C9 (code bug): for a 200 × 100 frame rotated by 90° (rotated frame
is 100 wide), a horizontal container with `cutout_size = 0.8` and
`cutout_x = 0.9` gets a crop window `[72, 192)` on the x axis — `crop_width`
and `start_x` are clamped against the *pre-rotation* width 200, so the
window extends past the rotated frame, contradicting both the claim and the
code's own "Ensure crop dimensions don't exceed frame" clamp. -/
theorem claim9_eval :
    (cutoutWindow c9 frame9).rotW = 100 ∧
    (cutoutWindow c9 frame9).startX + (cutoutWindow c9 frame9).cropW = 192 ∧
    ((cutoutWindow c9 frame9).rotW : ℤ) <
      (cutoutWindow c9 frame9).startX + (cutoutWindow c9 frame9).cropW := by
  decide

/-- Claim C10 (confirmed): every container from
`ContainerTransform.generate_container_settings` has rotation 0 or 90 when
vertical and 0 or 270 when horizontal; rotation 180 is never produced. -/
theorem claim10 (w h mo Mo : ℕ) (o : GenOracle)
    (ho : ValidOracle (mkContainerTransform w h mo Mo) o) :
    ∀ c ∈ containersOf (generateContainerSettings (mkContainerTransform w h mo Mo) o),
      (c.isVertical = true → c.rotation = 0 ∨ c.rotation = 90) ∧
      (c.isVertical = false → c.rotation = 0 ∨ c.rotation = 270) ∧
      c.rotation ≠ 180 := by
  intro c hc
  obtain ⟨p, hp, rfl⟩ := containersOf_mem hc
  exact generateContainerSettings_prop (mkContainerTransform w h mo Mo) o
    (spacing_nonneg w h mo Mo)
    (fun p => (p.container.isVertical = true →
        p.container.rotation = 0 ∨ p.container.rotation = 90) ∧
      (p.container.isVertical = false →
        p.container.rotation = 0 ∨ p.container.rotation = 270) ∧
      p.container.rotation ≠ 180)
    (fun d st row col hd _ => by
      obtain ⟨h1, h2⟩ := mkContainer_rot_cases (mkContainerTransform w h mo Mo) d row col
        (chooseCells d).wCells (chooseCells d).hCells (chooseCells d).isVert
      refine ⟨h1, h2, ?_⟩
      cases hv : (mkContainer (mkContainerTransform w h mo Mo) d row col
          (chooseCells d).wCells (chooseCells d).hCells (chooseCells d).isVert).isVertical
      · rcases h2 hv with hr | hr <;> rw [hr] <;> decide
      · rcases h1 hv with hr | hr <;> rw [hr] <;> decide)
    ho.2.2 p hp

theorem claim10_witness :
    ValidOracle wCT wOracle ∧
    ((((containersOf (generateContainerSettings wCT wOracle)).getD 0
          defaultContainer).isVertical = true →
        ((containersOf (generateContainerSettings wCT wOracle)).getD 0
          defaultContainer).rotation = 0 ∨
        ((containersOf (generateContainerSettings wCT wOracle)).getD 0
          defaultContainer).rotation = 90) ∧
     (((containersOf (generateContainerSettings wCT wOracle)).getD 0
          defaultContainer).isVertical = false →
        ((containersOf (generateContainerSettings wCT wOracle)).getD 0
          defaultContainer).rotation = 0 ∨
        ((containersOf (generateContainerSettings wCT wOracle)).getD 0
          defaultContainer).rotation = 270) ∧
     ((containersOf (generateContainerSettings wCT wOracle)).getD 0
        defaultContainer).rotation ≠ 180) :=
  ⟨by decide, claim10 100 100 1 1 wOracle (by decide) _ (by decide)⟩
